import Mathlib

/-!
Verification of the Mechabellum build-assistant scoring engine
(`mechabellum_builder.py`): the counter-knowledge data model, the
`score_unit` composite heuristic with all of its terms, the
`rank_counters` / `find_vuln` tally helpers, and the ranking order.

Python dictionaries keyed by unit name are embedded as association
lists with `List.lookup`; `dict.get(k, d)` becomes
`(List.lookup k m).getD d`.  Real-number scores are embedded as `ℚ`
(every constant in the source is a decimal literal, exact in `ℚ`).
A Python expression that raises (`units_meta[m]` on a missing key,
reading the never-initialized local `struggle_priority`) is embedded
as `Option`, with `none` for the raised exception.
-/

namespace Mecha

/-- Counter relationships of one unit, as scraped into `units.json`:
`countered_by` lists units that beat this unit, `used_against` lists
units this unit is commonly deployed against. -/
structure CInfo where
  countered_by : List String
  used_against : List String
deriving DecidableEq, Repr

/-- Metadata record of one unit from `units2.json`: cost, unlock cost
and the titan/giant class flags. -/
structure Meta where
  cost : Int
  unlock_cost : Int
  titan : Bool
  giant : Bool
deriving DecidableEq, Repr

/-- The whole read-only context of one `score_unit` call inside
`run_app`: the two scraped tables (`data`, `tiers`), the metadata
table (`units_meta`), the designated chaff set (`chaf_units`), the
three roster selections and the round number. -/
structure Ctx where
  data : List (String × CInfo)
  tiers : List (String × String)
  units_meta : List (String × Meta)
  chaf_units : List String
  my_units : List String
  enemy_units : List String
  struggle_units : List String
  round_num : Nat
deriving Repr

/-- Embeds `data.get(e, \x7b\x7d).get("countered_by", [])`. -/
def cbOf (data : List (String × CInfo)) (e : String) : List String :=
  ((data.lookup e).map CInfo.countered_by).getD []

/-- Embeds `data.get(e, \x7b\x7d).get("used_against", [])`. -/
def uaOf (data : List (String × CInfo)) (e : String) : List String :=
  ((data.lookup e).map CInfo.used_against).getD []

/-- The `countered_by` list of unit `e` in the context's data table. -/
def counteredBy (ctx : Ctx) (e : String) : List String :=
  cbOf ctx.data e

/-- The `used_against` list of unit `e` in the context's data table. -/
def usedAgainst (ctx : Ctx) (e : String) : List String :=
  uaOf ctx.data e

/-- The module constant `TIER_RANK = \x7b"S": 4, "A": 3, "B": 2, "C": 1, "D": 0\x7d`
as a partial map, `none` for a key outside the dict. -/
def TIER_RANK (t : String) : Option Int :=
  if t = "S" then some 4
  else if t = "A" then some 3
  else if t = "B" then some 2
  else if t = "C" then some 1
  else if t = "D" then some 0
  else none

/-- Embeds `tier_val(name, tiers) = TIER_RANK.get(tiers.get(name, ""), -1)`:
the tier ordinal used for tie-breaking in `rank_counters` and
`find_vuln`, with default `-1` for an unranked unit. -/
def tier_val (name : String) (tiers : List (String × String)) : Int :=
  (TIER_RANK ((tiers.lookup name).getD "")).getD (-1)

/-- The inline tier lookup of `score_unit`:
`t_val = TIER_RANK.get(tiers.get(u, ""), 0)` — same as `tier_val`
except that the default for an unranked unit is `0`. -/
def t_val_in_score (tiers : List (String × String)) (u : String) : Int :=
  (TIER_RANK ((tiers.lookup u).getD "")).getD 0

/-- Embeds `enemy_has_counter(u)` of `run_app`: some enemy unit either appears
in `u`'s `countered_by` list or lists `u` in its own `used_against`. -/
def enemy_has_counter (ctx : Ctx) (u : String) : Prop :=
  ∃ en ∈ ctx.enemy_units, en ∈ counteredBy ctx u ∨ u ∈ usedAgainst ctx en

instance (ctx : Ctx) (u : String) : Decidable (enemy_has_counter ctx u) := by
  unfold enemy_has_counter
  exact inferInstance

/-- The `chaf_score` local of `score_unit`, written as the source's
sequence of conditional assignments: when the candidate is chaff and
`round == 1`, an intermediate `8` is assigned under `enemy_has_counter`
and then unconditionally overwritten by `13`; a second `if` assigns
`-3` when the candidate is chaff and `round != 1`. -/
def chaf_score (ctx : Ctx) (u : String) : ℚ :=
  let s : ℚ := 0
  let s : ℚ :=
    if u ∈ ctx.chaf_units ∧ ctx.round_num = 1 then
      let _dead : ℚ := if enemy_has_counter ctx u then 8 else s
      13
    else s
  let s : ℚ := if u ∈ ctx.chaf_units ∧ ctx.round_num ≠ 1 then -3 else s
  s

/-- The `arc_score` local of `score_unit`: `9` when Arclight is not yet
in the build, `round == 1` and the candidate is Arclight, overwritten
by `15` when some chaff unit is among the enemy units; else `0`. -/
def arc_score (ctx : Ctx) (u : String) : ℚ :=
  if "Arclight" ∉ ctx.my_units ∧ ctx.round_num = 1 ∧ u = "Arclight" then
    let s : ℚ := 9
    if ∃ c ∈ ctx.chaf_units, c ∈ ctx.enemy_units then 15 else s
  else 0

/-- The `already` set of `score_unit`: enemy units that some unit of the
current build already covers (appears in their `countered_by`). -/
def already_set (ctx : Ctx) : List String :=
  ctx.enemy_units.filter fun e =>
    decide (∃ m ∈ ctx.my_units, m ∈ counteredBy ctx e)

/-- The `new_cov` list of `score_unit`: enemy units the candidate
covers that are not in `already`. -/
def new_cov (ctx : Ctx) (u : String) : List String :=
  ctx.enemy_units.filter fun e =>
    decide (u ∈ counteredBy ctx e ∧ e ∉ already_set ctx)

/-- The `overlap` list of `score_unit`: enemy units the candidate
covers that are in `already`. -/
def overlap_cov (ctx : Ctx) (u : String) : List String :=
  ctx.enemy_units.filter fun e =>
    decide (u ∈ counteredBy ctx e ∧ e ∈ already_set ctx)

/-- Embeds `coverage_score = len(new_cov) * 2 - len(overlap) * 0.3`. -/
def coverage_score (ctx : Ctx) (u : String) : ℚ :=
  ((new_cov ctx u).length : ℚ) * 2 - ((overlap_cov ctx u).length : ℚ) * 0.3

/-- Embeds `in_build = 1 if u in my_units else 0`. -/
def in_build (ctx : Ctx) (u : String) : ℚ :=
  if u ∈ ctx.my_units then 1 else 0

/-- The titan-exclusivity term, given the resolved metadata records of
`my_units`: `-999` when the candidate is titan and some build unit's
metadata has the titan flag. -/
def titan_pen (is_titan : Bool) (metasMine : List Meta) : ℚ :=
  if is_titan ∧ metasMine.any Meta.titan then -999 else 0

/-- Embeds `giants_in = sum(units_meta[m].get("giant", False) for m in my_units)`:
the number of giant-flagged build units. -/
def giants_in (metasMine : List Meta) : Nat :=
  (metasMine.filter Meta.giant).length

/-- The giant stacking penalty: `-2` / `-5` / `-10` for 1 / 2 / ≥3 giants
already in the build, applied only to a giant candidate. -/
def giant_pen (is_giant : Bool) (metasMine : List Meta) : ℚ :=
  if is_giant then
    if giants_in metasMine = 1 then -2
    else if giants_in metasMine = 2 then -5
    else if 3 ≤ giants_in metasMine then -10
    else 0
  else 0

/-- The `early_pen` local of `score_unit`, branching on the round:
rounds ≤ 3 penalize titan `-10` plus giant `-6`; rounds 4–5 titan
`-10`; round 6 titan `-7`; otherwise `-(10 - round)` while the round
is below 10 (note: applied to every candidate, without a class check),
and `0` from round 10 on. -/
def early_pen (r : Nat) (is_titan is_giant : Bool) : ℚ :=
  if r ≤ 3 then
    (if is_titan then -10 else 0) + (if is_giant then -6 else 0)
  else if r < 6 then
    if is_titan then -10 else 0
  else if r = 6 then
    if is_titan then -7 else 0
  else
    if r < 10 then -(10 - (r : ℚ)) else 0

/-- The `cost_pen` local of `score_unit`: `-(cost+unlock)/400` for
rounds ≤ 3, `(cost+unlock)/450` for rounds 4–6, and
`(cost+unlock)/(600 - 50*(round-6))` for later rounds. -/
def cost_pen (r : Nat) (cost unlock : Int) : ℚ :=
  if r ≤ 3 then -((cost : ℚ) + (unlock : ℚ)) / 400
  else if r ≤ 6 then ((cost : ℚ) + (unlock : ℚ)) / 450
  else ((cost : ℚ) + (unlock : ℚ)) / (600 - 50 * ((r : ℚ) - 6))

/-- The `enemy_interactions` set of `score_unit`: the distinct enemy
units that either counter the candidate or are units the candidate is
used against. -/
def enemy_interactions (ctx : Ctx) (u : String) : List String :=
  (ctx.enemy_units.filter fun en =>
    decide (en ∈ counteredBy ctx u ∨ u ∈ usedAgainst ctx en)).dedup

/-- Embeds `vuln_pen = -8 * interaction_count`. -/
def vuln_pen (ctx : Ctx) (u : String) : ℚ :=
  -8 * ((enemy_interactions ctx u).length : ℚ)

/-- The `struggle_priority` local of `score_unit`.  The source assigns
`10` only under `if any(u in data.get(s, ...).get("used_against", ...)
for s in struggle_units)` and never initializes the variable, so
reading it in the `return` expression raises `UnboundLocalError` when
the condition is false: embedded as `none`. -/
def struggle_priority (ctx : Ctx) (u : String) : Option ℚ :=
  if ∃ s ∈ ctx.struggle_units, u ∈ usedAgainst ctx s then some 10 else none

/-- The metadata records of the build units, as forced by
`sum(units_meta[m].get("giant", False) for m in my_units)`:
the direct indexing `units_meta[m]` raises `KeyError` (embedded as
`none`) when a build unit is absent from the metadata table. -/
def metas_mine (ctx : Ctx) : Option (List Meta) :=
  ctx.my_units.mapM fun m => ctx.units_meta.lookup m

/-- Embeds `meta = units_meta.get(u, \x7b\x7d)`: the candidate's metadata record. -/
def meta_of (ctx : Ctx) (u : String) : Option Meta :=
  ctx.units_meta.lookup u

/-- Embeds `is_titan = meta.get("titan", False)`. -/
def is_titan_of (ctx : Ctx) (u : String) : Bool :=
  ((meta_of ctx u).map Meta.titan).getD false

/-- Embeds `is_giant = meta.get("giant", False)`. -/
def is_giant_of (ctx : Ctx) (u : String) : Bool :=
  ((meta_of ctx u).map Meta.giant).getD false

/-- Embeds `cost = meta.get("cost", 300)`. -/
def cost_of (ctx : Ctx) (u : String) : Int :=
  ((meta_of ctx u).map Meta.cost).getD 300

/-- Embeds `unlock = meta.get("unlock_cost", 0)`. -/
def unlock_of (ctx : Ctx) (u : String) : Int :=
  ((meta_of ctx u).map Meta.unlock_cost).getD 0

/-- Embeds `score_unit(u)` of `run_app`: the composite heuristic score, `none`
when the Python function raises (a build unit missing from
`units_meta`, or the unassigned `struggle_priority` read). -/
def score_unit (ctx : Ctx) (u : String) : Option ℚ :=
  match metas_mine ctx with
  | none => none
  | some metasMine =>
    match struggle_priority ctx u with
    | none => none
    | some sp =>
      some (coverage_score ctx u
        + (t_val_in_score ctx.tiers u : ℚ) * 0.7
        + in_build ctx u
        + titan_pen (is_titan_of ctx u) metasMine
        + giant_pen (is_giant_of ctx u) metasMine
        + early_pen ctx.round_num (is_titan_of ctx u) (is_giant_of ctx u)
        + cost_pen ctx.round_num (cost_of ctx u) (unlock_of ctx u)
        + vuln_pen ctx u
        + chaf_score ctx u
        + arc_score ctx u
        + sp)

/-- One `tally[c] += 1` step on a `Counter` embedded as an
insertion-ordered association list: increment in place when the key is
present, append `(c, 1)` otherwise. -/
def tallyAdd (t : List (String × Nat)) (c : String) : List (String × Nat) :=
  if t.any fun p => p.1 = c then
    t.map fun p => if p.1 = c then (p.1, p.2 + 1) else p
  else t ++ [(c, 1)]

/-- Embeds `tally.pop(e, None)`: drop the entry with key `e`. -/
def tallyPop (t : List (String × Nat)) (e : String) : List (String × Nat) :=
  t.filter fun p => decide (p.1 ≠ e)

/-- The ascending sort key of `rank_counters` / `find_vuln`,
`(-count, -tier_val(name), name)`, as a lexicographic "may precede"
relation on tally entries. -/
def counter_le (tiers : List (String × String)) (a b : String × Nat) : Prop :=
  b.2 < a.2 ∨ (a.2 = b.2 ∧
    (tier_val b.1 tiers < tier_val a.1 tiers ∨
      (tier_val a.1 tiers = tier_val b.1 tiers ∧ a.1 ≤ b.1)))

instance (tiers : List (String × String)) : DecidableRel (counter_le tiers) :=
  fun _ _ => by unfold counter_le; exact inferInstance

/-- Embeds `rank_counters(enemy, data, tiers)`: tally every unit listed in some
enemy unit's `countered_by`, pop the enemy units themselves, and sort
by descending count, then descending tier value, then name. -/
def rank_counters (enemy : List String) (data : List (String × CInfo))
    (tiers : List (String × String)) : List (String × Nat) :=
  let tally := enemy.foldl (fun t e => (cbOf data e).foldl tallyAdd t) []
  let tally := enemy.foldl tallyPop tally
  List.insertionSort (counter_le tiers) tally

/-- Embeds `find_vuln(mine, data, tiers)`: tally every unit listed in some own
unit's `countered_by`, pop the own units themselves, and sort by the
same key as `rank_counters`. -/
def find_vuln (mine : List String) (data : List (String × CInfo))
    (tiers : List (String × String)) : List (String × Nat) :=
  let vul := mine.foldl (fun t m => (cbOf data m).foldl tallyAdd t) []
  let vul := mine.foldl tallyPop vul
  List.insertionSort (counter_le tiers) vul

/-- Embeds `all_units = sorted(data.keys())`: the distinct keys of the counter
table in ascending name order. -/
def all_units (ctx : Ctx) : List String :=
  List.insertionSort (fun a b => a ≤ b) (ctx.data.map Prod.fst).dedup

/-- The comparison under which Python's
`sorted(all_units, key=score_unit, reverse=True)` stably sorts:
`a` may precede `b` iff `score_unit b ≤ score_unit a`. -/
def score_ge (ctx : Ctx) (a b : String) : Prop :=
  (score_unit ctx b).getD 0 ≤ (score_unit ctx a).getD 0

instance (ctx : Ctx) : DecidableRel (score_ge ctx) :=
  fun _ _ => by unfold score_ge; exact inferInstance

/-- Embeds `ranked = sorted(all_units, key=score_unit, reverse=True)`:
Python's `sorted` evaluates the key on every element (raising if any
evaluation raises, embedded as `none`) and then sorts stably by
descending key; embedded with the stable `insertionSort`. -/
def ranked (ctx : Ctx) : Option (List String) :=
  if ∀ u ∈ all_units ctx, (score_unit ctx u).isSome then
    some (List.insertionSort (score_ge ctx) (all_units ctx))
  else none

/-! ### C3 — early-round class penalty at rounds 7 and later -/

/-- C3, counterexample: the claim says the early-round class-penalty
term is `0` for a non-titan, non-giant candidate at rounds 7–9, but at
round 7 the source's final branch applies `-(10 - round)` to every
candidate without a class check, giving `-3`. -/
theorem c3_counterexample : (early_pen 7 false false = 0) = False :=
  eq_false (by norm_num [early_pen])

/-- C3, amended: for rounds 7–9 the early-round penalty term equals
`round - 10` for every candidate — titan or not — and from round 10 on
it is `0` for every candidate. -/
theorem c3_early_pen_late_rounds (r : Nat) (t g : Bool) :
    (7 ≤ r → r ≤ 9 → early_pen r t g = (r : ℚ) - 10) ∧
    (10 ≤ r → early_pen r t g = 0) := by
  constructor
  · intro h7 h9
    have h3 : ¬ r ≤ 3 := by omega
    have h6 : ¬ r < 6 := by omega
    have h6' : ¬ r = 6 := by omega
    have h10 : r < 10 := by omega
    simp only [early_pen, if_neg h3, if_neg h6, if_neg h6', if_pos h10]
    ring
  · intro h10
    have h3 : ¬ r ≤ 3 := by omega
    have h6 : ¬ r < 6 := by omega
    have h6' : ¬ r = 6 := by omega
    have h10' : ¬ r < 10 := by omega
    simp only [early_pen, if_neg h3, if_neg h6, if_neg h6', if_neg h10']

/-- C3, witness: at round 8 a non-titan, non-giant candidate's
early-round term is `8 - 10 = -2`, and at round 10 a titan's is `0`. -/
theorem c3_early_pen_late_rounds_witness :
    early_pen 8 false false = (8 : ℚ) - 10 ∧ early_pen 10 true false = 0 :=
  ⟨(c3_early_pen_late_rounds 8 false false).1 (by decide) (by decide),
   (c3_early_pen_late_rounds 10 true false).2 (by decide)⟩

/-! ### C6 — cost term by round and the sign flip at round 4 -/

/-- C6: the cost term is `-(cost+unlock)/400` for rounds 1–3,
`(cost+unlock)/450` for rounds 4–6, `(cost+unlock)/(600-50*(round-6))`
for rounds 7–10, and for a positive `cost+unlock` its sign flips from
negative at round 3 to positive at round 4. -/
theorem c6_cost_pen (r : Nat) (c k : Int) (hr : r ≤ 10) :
    (r ≤ 3 → cost_pen r c k = -((c : ℚ) + (k : ℚ)) / 400) ∧
    (4 ≤ r → r ≤ 6 → cost_pen r c k = ((c : ℚ) + (k : ℚ)) / 450) ∧
    (7 ≤ r → cost_pen r c k = ((c : ℚ) + (k : ℚ)) / (600 - 50 * ((r : ℚ) - 6))) ∧
    (0 < (c : ℚ) + (k : ℚ) → cost_pen 3 c k < 0 ∧ 0 < cost_pen 4 c k) := by
  refine ⟨fun h3 => ?_, fun h4 h6 => ?_, fun h7 => ?_, fun hpos => ?_⟩
  · simp only [cost_pen, if_pos h3]
  · have h3 : ¬ r ≤ 3 := by omega
    simp only [cost_pen, if_neg h3, if_pos h6]
  · have h3 : ¬ r ≤ 3 := by omega
    have h6 : ¬ r ≤ 6 := by omega
    simp only [cost_pen, if_neg h3, if_neg h6]
  · constructor
    · have : cost_pen 3 c k = -((c : ℚ) + (k : ℚ)) / 400 := by
        simp only [cost_pen, if_pos (by norm_num : (3 : Nat) ≤ 3)]
      rw [this, neg_div]
      exact neg_neg_of_pos (div_pos hpos (by norm_num))
    · have : cost_pen 4 c k = ((c : ℚ) + (k : ℚ)) / 450 := by
        simp only [cost_pen]
        norm_num
      rw [this]
      exact div_pos hpos (by norm_num)

/-- C6, witness: at round 4 with cost 300 and unlock 0 the cost term is
`300/450` and it is positive, while at round 3 it is negative. -/
theorem c6_cost_pen_witness :
    cost_pen 4 300 0 = ((300 : ℚ) + (0 : ℚ)) / 450 ∧
    cost_pen 3 300 0 < 0 ∧ 0 < cost_pen 4 300 0 :=
  ⟨(c6_cost_pen 4 300 0 (by decide)).2.1 (by decide) (by decide),
   (c6_cost_pen 4 300 0 (by decide)).2.2.2 (by norm_num)⟩

/-! ### C8 — chaff term: unconditional 13 at round 1, -3 later -/

/-- C8: for a chaff candidate the chaff term is the unconditional `13`
at round 1 — whatever `enemy_has_counter` says, the intermediate `8`
being overwritten — and `-3` at any other round; for a non-chaff
candidate it is `0`. -/
theorem c8_chaf_score (ctx : Ctx) (u : String) :
    (u ∈ ctx.chaf_units → ctx.round_num = 1 → chaf_score ctx u = 13) ∧
    (u ∈ ctx.chaf_units → ctx.round_num ≠ 1 → chaf_score ctx u = -3) ∧
    (u ∉ ctx.chaf_units → chaf_score ctx u = 0) := by
  refine ⟨fun hm h1 => ?_, fun hm h1 => ?_, fun hm => ?_⟩
  · simp [chaf_score, hm, h1]
  · simp [chaf_score, hm, h1]
  · simp [chaf_score, hm]

/-- C8, witness: the spec's scenario — chaff set `["Crawler"]`, round 1,
no enemy interactions — gives Crawler a chaff term of exactly `13`. -/
theorem c8_chaf_score_witness :
    chaf_score
      { data := [], tiers := [], units_meta := [], chaf_units := ["Crawler"],
        my_units := [], enemy_units := [], struggle_units := [], round_num := 1 }
      "Crawler" = 13 :=
  (c8_chaf_score _ "Crawler").1 (by decide) rfl

/-! ### C10 — the two inconsistent tier-lookup defaults -/

/-- C10: a unit with no tier entry gets `-1` from `tier_val` (the
tie-break lookup of `rank_counters` and `find_vuln`), strictly below a
D-tier unit's `0`, while `score_unit`'s inline lookup
`t_val_in_score` defaults to `0`, equal to a D-tier unit's value. -/
theorem c10_tier_defaults (tiers : List (String × String)) (name dname : String)
    (h : tiers.lookup name = none) (hd : tiers.lookup dname = some "D") :
    tier_val name tiers = -1 ∧ t_val_in_score tiers name = 0 ∧
    tier_val dname tiers = 0 ∧ t_val_in_score tiers dname = 0 ∧
    tier_val name tiers < tier_val dname tiers ∧
    t_val_in_score tiers name = t_val_in_score tiers dname := by
  have h1 : tier_val name tiers = -1 := by
    simp [tier_val, h, TIER_RANK]
  have h2 : t_val_in_score tiers name = 0 := by
    simp [t_val_in_score, h, TIER_RANK]
  have h3 : tier_val dname tiers = 0 := by
    simp [tier_val, hd, TIER_RANK]
  have h4 : t_val_in_score tiers dname = 0 := by
    simp [t_val_in_score, hd, TIER_RANK]
  exact ⟨h1, h2, h3, h4, by rw [h1, h3]; decide, by rw [h2, h4]⟩

/-- C10, witness: with tier table `[("X", "D")]`, the unranked unit `Y`
gets `-1` from `tier_val` but `0` from the in-score lookup, while `X`
gets `0` from both. -/
theorem c10_tier_defaults_witness :
    tier_val "Y" [("X", "D")] = -1 ∧ t_val_in_score [("X", "D")] "Y" = 0 ∧
    tier_val "X" [("X", "D")] = 0 ∧ t_val_in_score [("X", "D")] "X" = 0 ∧
    tier_val "Y" [("X", "D")] < tier_val "X" [("X", "D")] ∧
    t_val_in_score [("X", "D")] "Y" = t_val_in_score [("X", "D")] "X" :=
  c10_tier_defaults [("X", "D")] "Y" "X" rfl rfl

/-! ### C5 — coverage partition -/

/-- C5: `new_cov` and `overlap_cov` partition the candidate's covered
enemy units: they are disjoint, their union is exactly the enemy units
whose `countered_by` contains the candidate, and the split is by
whether some build unit already covers the enemy unit. -/
theorem c5_coverage_partition (ctx : Ctx) (u e : String) :
    (e ∈ new_cov ctx u ↔
      e ∈ ctx.enemy_units ∧ u ∈ counteredBy ctx e ∧
        ¬ ∃ m ∈ ctx.my_units, m ∈ counteredBy ctx e) ∧
    (e ∈ overlap_cov ctx u ↔
      e ∈ ctx.enemy_units ∧ u ∈ counteredBy ctx e ∧
        ∃ m ∈ ctx.my_units, m ∈ counteredBy ctx e) ∧
    ((e ∈ new_cov ctx u ∧ e ∈ overlap_cov ctx u) = False) ∧
    ((e ∈ new_cov ctx u ∨ e ∈ overlap_cov ctx u) ↔
      e ∈ ctx.enemy_units ∧ u ∈ counteredBy ctx e) := by
  have ha : e ∈ already_set ctx ↔
      e ∈ ctx.enemy_units ∧ ∃ m ∈ ctx.my_units, m ∈ counteredBy ctx e := by
    simp [already_set, List.mem_filter]
  have hn : e ∈ new_cov ctx u ↔
      e ∈ ctx.enemy_units ∧ u ∈ counteredBy ctx e ∧ e ∉ already_set ctx := by
    simp [new_cov, List.mem_filter, and_assoc]
  have ho : e ∈ overlap_cov ctx u ↔
      e ∈ ctx.enemy_units ∧ u ∈ counteredBy ctx e ∧ e ∈ already_set ctx := by
    simp [overlap_cov, List.mem_filter, and_assoc]
  refine ⟨?_, ?_, eq_false ?_, ?_⟩
  · rw [hn]
    constructor
    · rintro ⟨he, hu, hns⟩
      exact ⟨he, hu, fun hex => hns (ha.2 ⟨he, hex⟩)⟩
    · rintro ⟨he, hu, hns⟩
      exact ⟨he, hu, fun hs => hns (ha.1 hs).2⟩
  · rw [ho, ha]
    tauto
  · rw [hn, ho]
    rintro ⟨⟨_, _, hns⟩, ⟨_, _, hs⟩⟩
    exact hns hs
  · rw [hn, ho]
    constructor
    · rintro (⟨he, hu, _⟩ | ⟨he, hu, _⟩) <;> exact ⟨he, hu⟩
    · rintro ⟨he, hu⟩
      by_cases hs : e ∈ already_set ctx
      · exact Or.inr ⟨he, hu, hs⟩
      · exact Or.inl ⟨he, hu, hs⟩

/-- C5, witness: with build `["M"]`, enemy `["P", "Q"]`, where `M`
covers `P` and the candidate `X` covers both, `P` is overlap coverage
and `Q` is new coverage. -/
theorem c5_coverage_partition_witness :
    ("Q" ∈ new_cov
      { data := [("P", ⟨["M", "X"], []⟩), ("Q", ⟨["X"], []⟩)], tiers := [],
        units_meta := [], chaf_units := [], my_units := ["M"],
        enemy_units := ["P", "Q"], struggle_units := [], round_num := 1 } "X" ↔
      "Q" ∈ ["P", "Q"] ∧ "X" ∈ counteredBy
        { data := [("P", ⟨["M", "X"], []⟩), ("Q", ⟨["X"], []⟩)], tiers := [],
          units_meta := [], chaf_units := [], my_units := ["M"],
          enemy_units := ["P", "Q"], struggle_units := [], round_num := 1 } "Q" ∧
        ¬ ∃ m ∈ ["M"], m ∈ counteredBy
          { data := [("P", ⟨["M", "X"], []⟩), ("Q", ⟨["X"], []⟩)], tiers := [],
            units_meta := [], chaf_units := [], my_units := ["M"],
            enemy_units := ["P", "Q"], struggle_units := [], round_num := 1 } "Q") :=
  (c5_coverage_partition _ "X" "Q").1

/-! ### C1 — the never-initialized struggle-priority local -/

/-- The failing input of C1: a populated build and enemy roster, an
empty struggle list, and a candidate with no struggle relation. -/
def ctxC1 : Ctx :=
  { data := [("E", ⟨[], []⟩)]
    tiers := []
    units_meta := [("M", ⟨100, 0, false, false⟩)]
    chaf_units := []
    my_units := ["M"]
    enemy_units := ["E"]
    struggle_units := []
    round_num := 1 }

/-- C1: evaluating the code at the failing input.  The candidate has no
struggle-unit relation, so the `struggle_priority` local is never
assigned and the `return` expression raises `UnboundLocalError`
(embedded as `none`) — even though every build unit's metadata is
present — instead of contributing `0` as the spec requires. -/
theorem c1_struggle_priority_unbound :
    struggle_priority ctxC1 "Crawler" = none ∧
    metas_mine ctxC1 = some [⟨100, 0, false, false⟩] ∧
    score_unit ctxC1 "Crawler" = none :=
  ⟨rfl, rfl, rfl⟩

/-! ### C2 — the non-total metadata lookup for build units -/

/-- The failing input of C2: the build contains `Ghost`, which is
absent from the metadata table; the candidate has a struggle relation,
so the struggle local is assigned and the only failure is the
metadata lookup. -/
def ctxC2 : Ctx :=
  { data := [("E", ⟨[], ["A"]⟩)]
    tiers := []
    units_meta := []
    chaf_units := []
    my_units := ["Ghost"]
    enemy_units := ["E"]
    struggle_units := ["E"]
    round_num := 3 }

/-- C2: evaluating the code at the failing input.  The direct indexing
`units_meta[m]` over the build units raises `KeyError` (embedded as
`none`) for a build unit absent from the metadata table, so scoring
raises instead of applying the documented defaults — here the struggle
local is assigned (`some 10`), isolating the metadata failure. -/
theorem c2_units_meta_keyerror :
    struggle_priority ctxC2 "A" = some 10 ∧
    metas_mine ctxC2 = none ∧
    score_unit ctxC2 "A" = none :=
  ⟨rfl, rfl, rfl⟩

/-! ### C9 — rank_counters / find_vuln never suggest a roster unit -/

/-- Folding `tallyPop` over a name list only removes tally entries. -/
theorem mem_of_mem_foldl_tallyPop (p : String × Nat) :
    ∀ (es : List String) (t : List (String × Nat)),
      p ∈ List.foldl tallyPop t es → p ∈ t := by
  intro es
  induction es with
  | nil => exact fun t h => h
  | cons e es ih =>
    intro t h
    exact (List.mem_filter.1 (ih (tallyPop t e) h)).1

/-- After folding `tallyPop` over a name list, no surviving tally entry
is keyed by a popped name. -/
theorem key_not_mem_of_mem_foldl_tallyPop (p : String × Nat) :
    ∀ (es : List String) (t : List (String × Nat)),
      p ∈ List.foldl tallyPop t es → p.1 ∉ es := by
  intro es
  induction es with
  | nil => exact fun t _ h => List.not_mem_nil _ h
  | cons e es ih =>
    intro t h hc
    have h2 : p.1 ∉ es := ih (tallyPop t e) h
    have h1 : p ∈ tallyPop t e := mem_of_mem_foldl_tallyPop p es _ h
    have h3 : p.1 ≠ e := by
      have := (List.mem_filter.1 h1).2
      simpa using this
    rcases List.mem_cons.1 hc with h' | h'
    · exact h3 h'
    · exact h2 h'

/-- C9: `rank_counters` never includes an enemy unit in its output and
`find_vuln` never includes one of the player's own units (each roster
unit is popped from the tally before sorting), and both return `[]`
on an empty input list. -/
theorem c9_roster_excluded (enemy mine : List String)
    (data : List (String × CInfo)) (tiers : List (String × String)) :
    (∀ p ∈ rank_counters enemy data tiers, p.1 ∉ enemy) ∧
    (∀ p ∈ find_vuln mine data tiers, p.1 ∉ mine) ∧
    rank_counters [] data tiers = [] ∧
    find_vuln [] data tiers = [] := by
  refine ⟨fun p hp => ?_, fun p hp => ?_, rfl, rfl⟩
  · have hm : p ∈ List.foldl tallyPop
        (List.foldl (fun t e => (cbOf data e).foldl tallyAdd t) [] enemy) enemy := by
      have hperm := List.perm_insertionSort (counter_le tiers)
        (List.foldl tallyPop
          (List.foldl (fun t e => (cbOf data e).foldl tallyAdd t) [] enemy) enemy)
      exact hperm.mem_iff.1 hp
    exact key_not_mem_of_mem_foldl_tallyPop p enemy _ hm
  · have hm : p ∈ List.foldl tallyPop
        (List.foldl (fun t m => (cbOf data m).foldl tallyAdd t) [] mine) mine := by
      have hperm := List.perm_insertionSort (counter_le tiers)
        (List.foldl tallyPop
          (List.foldl (fun t m => (cbOf data m).foldl tallyAdd t) [] mine) mine)
      exact hperm.mem_iff.1 hp
    exact key_not_mem_of_mem_foldl_tallyPop p mine _ hm

/-- C9, witness: with enemies `X`, `Y`, where `Y` is itself listed as a
counter of `X`, the suggested counter `Cu` (tallied twice) is not an
enemy unit — and `Y` was popped from the tally. -/
theorem c9_roster_excluded_witness : ("Cu" : String) ∉ ["X", "Y"] :=
  (c9_roster_excluded ["X", "Y"] []
      [("X", ⟨["Cu", "Y"], []⟩), ("Y", ⟨["Cu", "Du"], []⟩)] []).1
    ("Cu", 2) (by decide)

/-! ### C7 — titan exclusivity -/

/-- Replace the titan flag of unit `u`'s metadata entry, leaving every
other field and entry unchanged: the "otherwise-identical candidate
differing only in the titan flag" of the claim. -/
def setTitan (um : List (String × Meta)) (u : String) (b : Bool) :
    List (String × Meta) :=
  um.map fun p => if p.1 = u then (p.1, { p.2 with titan := b }) else p

/-- Lemma: `setTitan` does not change the lookup of any other unit. -/
theorem lookup_setTitan_ne (um : List (String × Meta)) (u x : String) (b : Bool)
    (hx : x ≠ u) : (setTitan um u b).lookup x = um.lookup x := by
  induction um with
  | nil => rfl
  | cons p um ih =>
    rcases p with ⟨k, v⟩
    simp only [setTitan, List.map_cons] at ih ⊢
    by_cases hk : k = u
    · subst hk
      simp only [↓reduceIte, List.lookup_cons, beq_false_of_ne hx]
      exact ih
    · simp only [if_neg hk, List.lookup_cons]
      cases hxk : x == k with
      | true => rfl
      | false => exact ih

/-- Lemma: `setTitan` maps unit `u`'s own metadata entry to the same record
with the titan flag replaced. -/
theorem lookup_setTitan_self (um : List (String × Meta)) (u : String) (b : Bool) :
    (setTitan um u b).lookup u =
      (um.lookup u).map fun m => { m with titan := b } := by
  induction um with
  | nil => rfl
  | cons p um ih =>
    rcases p with ⟨k, v⟩
    simp only [setTitan, List.map_cons] at ih ⊢
    by_cases hk : k = u
    · subst hk
      simp only [↓reduceIte, List.lookup_cons, beq_self_eq_true]
      rfl
    · have huk : (u == k) = false := beq_false_of_ne fun h => hk h.symm
      simp only [if_neg hk, List.lookup_cons, huk]
      exact ih

/-- Lemma: `mapM` of a pointwise-equal lookup is equal. -/
theorem mapM_lookup_congr (um um' : List (String × Meta)) (l : List String)
    (h : ∀ x ∈ l, um'.lookup x = um.lookup x) :
    l.mapM (fun m => um'.lookup m) = l.mapM (fun m => um.lookup m) := by
  induction l with
  | nil => rfl
  | cons a l ih =>
    rw [List.mapM_cons, List.mapM_cons, h a (List.mem_cons_self a l),
      ih fun x hx => h x (List.mem_cons_of_mem a hx)]

/-- From round 7 on, `early_pen` no longer inspects the class flags. -/
theorem early_pen_late (r : Nat) (t g t' g' : Bool) (h : 6 < r) :
    early_pen r t g = early_pen r t' g' := by
  have h3 : ¬ r ≤ 3 := by omega
  have h6 : ¬ r < 6 := by omega
  have h6' : ¬ r = 6 := by omega
  simp only [early_pen, if_neg h3, if_neg h6, if_neg h6']

/-- The value `score_unit` returns once both fallible reads succeed. -/
theorem score_unit_eq (ctx : Ctx) (u : String) (L : List Meta) (sp : ℚ)
    (hL : metas_mine ctx = some L) (hsp : struggle_priority ctx u = some sp) :
    score_unit ctx u = some (coverage_score ctx u
      + (t_val_in_score ctx.tiers u : ℚ) * 0.7
      + in_build ctx u
      + titan_pen (is_titan_of ctx u) L
      + giant_pen (is_giant_of ctx u) L
      + early_pen ctx.round_num (is_titan_of ctx u) (is_giant_of ctx u)
      + cost_pen ctx.round_num (cost_of ctx u) (unlock_of ctx u)
      + vuln_pen ctx u
      + chaf_score ctx u
      + arc_score ctx u
      + sp) := by
  unfold score_unit
  rw [hL, hsp]

/-- C7, amended: when the build already contains a titan, a titan
candidate's titan-exclusivity term is exactly `-999`; from round 7 on
its composite score is lower by exactly `999` than the score of the
otherwise-identical non-titan candidate (same metadata with the titan
flag cleared, same counter data, tier, roster and round).  In rounds
1–6 the difference also includes the titan early-round class penalty,
so it exceeds `999` (see the counterexample). -/
theorem c7_titan_exclusivity (ctx : Ctx) (u : String) (m : Meta)
    (hm : meta_of ctx u = some m) (htitan : m.titan = true)
    (hmine : u ∉ ctx.my_units)
    (hround : 7 ≤ ctx.round_num)
    (L : List Meta) (hL : metas_mine ctx = some L)
    (hbuild : L.any Meta.titan = true)
    (sp : ℚ) (hsp : struggle_priority ctx u = some sp) :
    titan_pen (is_titan_of ctx u) L = -999 ∧
    ∃ q q', score_unit ctx u = some q ∧
      score_unit { ctx with units_meta := setTitan ctx.units_meta u false } u
        = some q' ∧
      q' - q = 999 := by
  set ctx' : Ctx := { ctx with units_meta := setTitan ctx.units_meta u false }
    with hctx'
  have hti : is_titan_of ctx u = true := by
    simp [is_titan_of, hm, htitan]
  have hm' : meta_of ctx' u = some { m with titan := false } := by
    show (setTitan ctx.units_meta u false).lookup u = _
    rw [lookup_setTitan_self, show ctx.units_meta.lookup u = some m from hm]
    rfl
  have hti' : is_titan_of ctx' u = false := by
    simp [is_titan_of, hm']
  have hgi' : is_giant_of ctx' u = is_giant_of ctx u := by
    simp [is_giant_of, hm', hm]
  have hco' : cost_of ctx' u = cost_of ctx u := by
    simp [cost_of, hm', hm]
  have hun' : unlock_of ctx' u = unlock_of ctx u := by
    simp [unlock_of, hm', hm]
  have hL' : metas_mine ctx' = some L := by
    have : metas_mine ctx' = metas_mine ctx := by
      show ctx.my_units.mapM (fun x => (setTitan ctx.units_meta u false).lookup x)
        = ctx.my_units.mapM fun x => ctx.units_meta.lookup x
      exact mapM_lookup_congr _ _ _ fun x hx =>
        lookup_setTitan_ne _ _ _ _ fun h => hmine (h ▸ hx)
    rw [this, hL]
  have hsp' : struggle_priority ctx' u = some sp := hsp
  have hpen : titan_pen (is_titan_of ctx u) L = -999 := by
    rw [hti]
    simp [titan_pen, List.any_eq_true.1 hbuild]
  refine ⟨hpen, _, _, score_unit_eq ctx u L sp hL hsp,
    score_unit_eq ctx' u L sp hL' hsp', ?_⟩
  have hcov : coverage_score ctx' u = coverage_score ctx u := rfl
  have htv : t_val_in_score ctx'.tiers u = t_val_in_score ctx.tiers u := rfl
  have hib : in_build ctx' u = in_build ctx u := rfl
  have hvp : vuln_pen ctx' u = vuln_pen ctx u := rfl
  have hcs : chaf_score ctx' u = chaf_score ctx u := rfl
  have has' : arc_score ctx' u = arc_score ctx u := rfl
  have hrn : ctx'.round_num = ctx.round_num := rfl
  have e1 : titan_pen true L = -999 := by
    simp [titan_pen, hbuild]
  have e2 : titan_pen false L = 0 := by
    simp [titan_pen]
  have e3 : early_pen ctx.round_num false (is_giant_of ctx u)
      = early_pen ctx.round_num true (is_giant_of ctx u) :=
    early_pen_late _ _ _ _ _ (by omega)
  simp only [hcov, htv, hib, hvp, hcs, has', hrn, hgi', hco', hun', hti, hti',
    e1, e2, e3]
  ring

/-- The concrete input refuting C7's "for every round": round 2, titan
`M` in the build, candidates `T` (titan) and `N` (identical but
non-titan), both countering the struggle unit `E`. -/
def ctxC7 : Ctx :=
  { data := [("E", ⟨[], ["T", "N"]⟩)]
    tiers := []
    units_meta := [("T", ⟨300, 0, true, false⟩), ("N", ⟨300, 0, false, false⟩),
                   ("M", ⟨100, 0, true, false⟩)]
    chaf_units := []
    my_units := ["M"]
    enemy_units := ["E"]
    struggle_units := ["E"]
    round_num := 2 }

/-- C7, counterexample: at round 2 the composite score of the non-titan
candidate exceeds the titan candidate's by `1009`, not `999` — the
titan also pays the `-10` early-round class penalty — refuting the
claimed exact-999 reduction "for every round". -/
theorem c7_counterexample :
    (score_unit ctxC7 "N").getD 0 - (score_unit ctxC7 "T").getD 0 = 1009 ∧
    ((score_unit ctxC7 "N").getD 0 - (score_unit ctxC7 "T").getD 0 = 999) = False := by
  have h : (score_unit ctxC7 "N").getD 0 - (score_unit ctxC7 "T").getD 0 = 1009 := by
    simp [score_unit, metas_mine, struggle_priority, coverage_score, new_cov,
      overlap_cov, already_set, counteredBy, usedAgainst, cbOf, uaOf,
      t_val_in_score, TIER_RANK, in_build, titan_pen, giant_pen, giants_in,
      early_pen, cost_pen, vuln_pen, enemy_interactions, chaf_score, arc_score,
      is_titan_of, is_giant_of, cost_of, unlock_of, meta_of, ctxC7, List.lookup,
      List.mapM, List.mapM.loop, List.filter, List.dedup, enemy_has_counter]
    norm_num
  refine ⟨h, eq_false fun hc => ?_⟩
  rw [h] at hc
  norm_num at hc

/-- The concrete input for the C7 witness: `ctxC7` at round 8. -/
def ctxC7w : Ctx :=
  { ctxC7 with round_num := 8 }

/-- C7, witness: at round 8 the titan candidate `T` gets the `-999`
term, and clearing its titan flag raises its composite score by
exactly `999`. -/
theorem c7_titan_exclusivity_witness :
    titan_pen (is_titan_of ctxC7w "T")
        [⟨100, 0, true, false⟩] = -999 ∧
    ∃ q q', score_unit ctxC7w "T" = some q ∧
      score_unit { ctxC7w with units_meta := setTitan ctxC7w.units_meta "T" false } "T"
        = some q' ∧
      q' - q = 999 :=
  c7_titan_exclusivity ctxC7w "T" ⟨300, 0, true, false⟩ rfl rfl
    (by decide) (by decide) [⟨100, 0, true, false⟩] rfl rfl 10 rfl

/-! ### C4 — the ranking is score-descending with alphabetical ties -/

/-- The claimed total order on ranked output: strictly greater
composite score first, ties in ascending alphabetical name order. -/
def rank_order (ctx : Ctx) (a b : String) : Prop :=
  (score_unit ctx b).getD 0 < (score_unit ctx a).getD 0 ∨
    ((score_unit ctx a).getD 0 = (score_unit ctx b).getD 0 ∧ a < b)

/-- Lemma: `rank_order` implies weakly descending scores. -/
theorem rank_order_score_le {ctx : Ctx} {a b : String} (h : rank_order ctx a b) :
    (score_unit ctx b).getD 0 ≤ (score_unit ctx a).getD 0 := by
  rcases h with h | ⟨h, _⟩
  · exact le_of_lt h
  · exact le_of_eq h.symm

/-- Inserting an alphabetically-smallest element into a `rank_order`ed
list by weak score comparison keeps the list `rank_order`ed: the
stable insertion places it before every equal-scored element, which is
correct because its name is smaller. -/
theorem pairwise_orderedInsert_rank (ctx : Ctx) (a : String) :
    ∀ M : List String, M.Pairwise (rank_order ctx) → (∀ b ∈ M, a < b) →
      (List.orderedInsert (score_ge ctx) a M).Pairwise (rank_order ctx) := by
  intro M
  induction M with
  | nil =>
    intro _ _
    simp
  | cons b M ih =>
    intro hM ha
    simp only [List.orderedInsert]
    by_cases h : score_ge ctx a b
    · rw [if_pos h]
      rw [List.pairwise_cons]
      refine ⟨fun x hx => ?_, hM⟩
      rcases List.mem_cons.1 hx with rfl | hxM
      · rcases lt_or_eq_of_le h with hlt | heq
        · exact Or.inl hlt
        · exact Or.inr ⟨heq.symm, ha x (List.mem_cons_self x M)⟩
      · have hbx := (List.pairwise_cons.1 hM).1 x hxM
        have hxa : (score_unit ctx x).getD 0 ≤ (score_unit ctx a).getD 0 :=
          le_trans (rank_order_score_le hbx) h
        rcases lt_or_eq_of_le hxa with hlt | heq
        · exact Or.inl hlt
        · exact Or.inr ⟨heq.symm, ha x (List.mem_cons_of_mem b hxM)⟩
    · rw [if_neg h]
      rw [List.pairwise_cons]
      constructor
      · intro x hx
        rcases (List.mem_orderedInsert _).1 hx with rfl | hxM
        · exact Or.inl (not_le.mp h)
        · exact (List.pairwise_cons.1 hM).1 x hxM
      · exact ih hM.of_cons fun x hx => ha x (List.mem_cons_of_mem b hx)

/-- Stable weak-score insertion sort of a strictly name-sorted list is
`rank_order`ed. -/
theorem pairwise_insertionSort_rank (ctx : Ctx) :
    ∀ l : List String, l.Pairwise (· < ·) →
      (List.insertionSort (score_ge ctx) l).Pairwise (rank_order ctx) := by
  intro l
  induction l with
  | nil =>
    intro _
    simp
  | cons a l ih =>
    intro hl
    simp only [List.insertionSort]
    refine pairwise_orderedInsert_rank ctx a _ (ih hl.of_cons) fun b hb => ?_
    exact (List.pairwise_cons.1 hl).1 b ((List.mem_insertionSort _).1 hb)

/-- Lemma: `sorted(data.keys())` is strictly increasing: sorted and
duplicate-free. -/
theorem all_units_pairwise_lt (ctx : Ctx) : (all_units ctx).Pairwise (· < ·) := by
  have hs : (all_units ctx).Pairwise fun a b : String => a ≤ b :=
    List.sorted_insertionSort _ _
  have hn : (all_units ctx).Nodup :=
    (List.perm_insertionSort _ _).nodup_iff.2 (List.nodup_dedup _)
  exact (hs.and hn).imp fun h => lt_of_le_of_ne h.1 h.2

/-- C4: whenever the ranking is produced (every key evaluation
succeeds), its output is totally ordered by composite score descending
with any equal-score pair in ascending alphabetical order — Python's
stable `sorted(..., reverse=True)` over the alphabetical `all_units` —
and the output for identical inputs is unique, hence repeated calls
yield the identical order. -/
theorem c4_ranked_order (ctx : Ctx) (l : List String)
    (h : ranked ctx = some l) :
    l.Pairwise (rank_order ctx) ∧ ∀ l', ranked ctx = some l' → l' = l := by
  have hl : l = List.insertionSort (score_ge ctx) (all_units ctx) := by
    unfold ranked at h
    split at h
    · exact (Option.some.inj h).symm
    · exact absurd h (by simp)
  constructor
  · rw [hl]
    exact pairwise_insertionSort_rank ctx _ (all_units_pairwise_lt ctx)
  · intro l' h'
    rw [h] at h'
    exact (Option.some.inj h').symm

/-- The concrete input for the C4 witness: two units `A`, `B` with
identical composite scores (an actual tie), both countering the
struggle unit so every key evaluation succeeds. -/
def ctxC4 : Ctx :=
  { data := [("A", ⟨[], ["A", "B"]⟩), ("B", ⟨[], []⟩)]
    tiers := []
    units_meta := []
    chaf_units := []
    my_units := []
    enemy_units := []
    struggle_units := ["A"]
    round_num := 1 }

/-- C4, witness: on `ctxC4` the ranking is produced and is
`rank_order`ed (here `A` and `B` tie on score and come out in
alphabetical order), and any repeated call returns the same list. -/
theorem c4_ranked_order_witness :
    (List.insertionSort (score_ge ctxC4) (all_units ctxC4)).Pairwise
      (rank_order ctxC4) ∧
    ∀ l', ranked ctxC4 = some l' →
      l' = List.insertionSort (score_ge ctxC4) (all_units ctxC4) :=
  c4_ranked_order ctxC4 _ (by
    have hcond : ∀ u ∈ all_units ctxC4, (score_unit ctxC4 u).isSome := by
      intro u hu
      have hu' : u = "A" ∨ u = "B" := by
        have h1 := (List.mem_insertionSort _).1 hu
        rw [List.mem_dedup] at h1
        simpa [ctxC4] using h1
      rcases hu' with rfl | rfl <;> rfl
    unfold ranked
    rw [if_pos hcond])

end Mecha
